import Mathlib

/-!
Verification of the Spectrum_Decisions repository (three Python scripts:
`Decisions.py` — crawler/extractor, `database.py` — tier loader,
`testing.py` — exporter) against its natural-language specification.

Each Python function the claims touch is shallowly embedded as an executable
Lean definition below; theorems at the end of the file settle the claims.
-/

namespace SpectrumDecisions

/-! ### `Decisions.py::format_frequency_range`

The Python function runs `re.findall` with the pattern

  `(\d{3,4})- ?(\d{3,4})|(\d{3,4})/ ?(\d{3,4})|(\d{3,4})-(\d{3,4})(\d{3,4})-(\d{3,4})`

and then formats each 8-tuple of capture groups.  We embed the backtracking
semantics of this fixed pattern: alternatives are tried left to right,
`\d{3,4}` is greedy (4 digits first, then 3), `?` is greedy, and `findall`
scans left to right, resuming after each non-overlapping match. -/

/-- Consume exactly `n` decimal digits from the head of `cs`, returning the
digits and the remainder; `none` if fewer than `n` digits are available. -/
def grabDigits : Nat → List Char → Option (List Char × List Char)
  | 0, cs => some ([], cs)
  | _ + 1, [] => none
  | n + 1, c :: cs =>
      if c.isDigit then (grabDigits n cs).map (fun p => (c :: p.1, p.2)) else none

/-- The candidate parses of `\d{3,4}` at the head of `cs`, in the order the
backtracking engine tries them (greedy: 4 digits first, then 3). -/
def numCandidates (cs : List Char) : List (List Char × List Char) :=
  [grabDigits 4 cs, grabDigits 3 cs].filterMap id

/-- First success of `f` over the candidates, in order: the regex engine's
backtracking over an ordered list of choices. -/
def firstSome {α β : Type} : List α → (α → Option β) → Option β
  | [], _ => none
  | x :: xs, f =>
      match f x with
      | some b => some b
      | none => firstSome xs f

/-- After group 1 (`g1`) and the separator, parse the closing `(\d{3,4})`. -/
def numAfter (g1 : List Char) (cs : List Char) :
    Option ((String × String) × List Char) :=
  firstSome (numCandidates cs) fun p2 => some ((g1.asString, p2.1.asString), p2.2)

/-- One attempt of the alternative `(\d{3,4})SEP ?(\d{3,4})` at the head of
`cs` (`SEP` is `-` for the first regex alternative, `/` for the second), in
the engine's backtracking order: group 1 greedy, then the literal separator,
then the optional space (greedy, backtracked if the final group fails). -/
def tryPairAlt (sep : Char) (cs : List Char) :
    Option ((String × String) × List Char) :=
  firstSome (numCandidates cs) fun p1 =>
    match p1.2 with
    | c :: rest =>
        if c = sep then
          match rest with
          | ' ' :: rest2 =>
              match numAfter p1.1 rest2 with
              | some r => some r
              | none => numAfter p1.1 rest
          | _ => numAfter p1.1 rest
        else none
    | [] => none

/-- One attempt of the alternative `(\d{3,4})-(\d{3,4})(\d{3,4})-(\d{3,4})`
at the head of `cs`, groups greedy with left-to-right backtracking priority. -/
def tryQuadAlt (cs : List Char) :
    Option ((String × String × String × String) × List Char) :=
  firstSome (numCandidates cs) fun p1 =>
    match p1.2 with
    | '-' :: r1 =>
        firstSome (numCandidates r1) fun p2 =>
          firstSome (numCandidates p2.2) fun p3 =>
            match p3.2 with
            | '-' :: r2 =>
                firstSome (numCandidates r2) fun p4 =>
                  some ((p1.1.asString, p2.1.asString, p3.1.asString,
                         p4.1.asString), p4.2)
            | _ => none
    | _ => none

/-- One attempt of the full pattern at the head of `cs`: the three
alternatives in order; on success, the 8-tuple of capture groups as
`re.findall` reports it (unmatched groups are empty strings), plus the
unconsumed remainder of the input. -/
def matchHere (cs : List Char) : Option (List String × List Char) :=
  match tryPairAlt '-' cs with
  | some ((a, b), r) => some ([a, b, "", "", "", "", "", ""], r)
  | none =>
      match tryPairAlt '/' cs with
      | some ((a, b), r) => some (["", "", a, b, "", "", "", ""], r)
      | none =>
          match tryQuadAlt cs with
          | some ((a, b, c, d), r) => some (["", "", "", "", a, b, c, d], r)
          | none => none

/-- Source: `re.findall` scan: try the pattern at each position, resuming after each
match.  Every match consumes at least seven characters, so `fuel` bounded by
the input length plus one never runs out. -/
def findAllAux : Nat → List Char → List (List String)
  | 0, _ => []
  | _ + 1, [] => []
  | fuel + 1, c :: rest =>
      match matchHere (c :: rest) with
      | some (gs, r) => gs :: findAllAux fuel r
      | none => findAllAux fuel rest

/-- Source: `re.findall(pattern, s)` for the frequency-range pattern. -/
def reFindall (s : String) : List (List String) :=
  findAllAux (s.length + 1) s.data

/-- The loop body of `format_frequency_range`: keep the non-empty groups; two
groups render as `a-b`, four as `a-b c-d`, anything else is skipped. -/
def formatMatch (groups : List String) : Option String :=
  match groups.filter (fun m => m ≠ "") with
  | [a, b] => some (a ++ "-" ++ b)
  | [a, b, c, d] => some (a ++ "-" ++ b ++ " " ++ c ++ "-" ++ d)
  | _ => none

/-- Source: `Decisions.py` lines 91–104. -/
def format_frequency_range (freq_range : String) : String :=
  String.intercalate " " ((reFindall freq_range).filterMap formatMatch)

/-! ### `Decisions.py::extract_decision_links`

A listing row is modelled as `Option String`: the `href` of the first anchor
of the row, or `none` when the row has no anchor (such rows are skipped). -/

/-- Whether the first list is an initial segment of the second (the
character-level content of Python's `str.startswith`). -/
def headSeg : List Char → List Char → Bool
  | [], _ => true
  | _ :: _, [] => false
  | p :: ps, c :: cs => p = c && headSeg ps cs

/-- Python `s.startswith(t)`. -/
def strStartsWith (s t : String) : Bool :=
  headSeg t.data s.data

/-- Source: `Decisions.py` line 71: resolve a relative `href` against the site base. -/
def mkFullHref (href : String) : String :=
  if strStartsWith href "http" then href
  else "https://ised-isde.canada.ca" ++ href

/-- The scanning loop of `extract_decision_links` (lines 67–76): collect full
hrefs top to bottom, stopping (Python `break`) at the first link equal to
`last_visited`; comparison with `last_visited = None` is always false. -/
def collectLinks (rows : List (Option String)) (lastVisited : Option String) :
    List String :=
  match rows with
  | [] => []
  | none :: rest => collectLinks rest lastVisited
  | some href :: rest =>
      let full := mkFullHref href
      if lastVisited = some full then []
      else full :: collectLinks rest lastVisited

/-- Source: `Decisions.py` lines 62–78: the collected links, reversed. -/
def extract_decision_links (rows : List (Option String))
    (lastVisited : Option String) : List String :=
  (collectLinks rows lastVisited).reverse

/-! ### `Decisions.py::get_last_visited` / `save_last_visited`

The cursor file is modelled by what the external `json` library does with its
content: `absent` (opening raises `FileNotFoundError`, caught), `malformed`
(`json.load` raises `JSONDecodeError`, caught), or `parsed j` (`json.load`
returns the JSON value `j`).  A Python outcome is either a returned value or
an uncaught exception. -/

/-- A JSON value as returned by `json.load`. -/
inductive JVal : Type where
  | jnull : JVal
  | jbool : Bool → JVal
  | jnum : Int → JVal
  | jstr : String → JVal
  | jarr : List JVal → JVal
  | jobj : List (String × JVal) → JVal

/-- Python `dict.get(k)`: the value at the first matching key, else `None`
(modelled as `none`). -/
def jsonGet (kvs : List (String × JVal)) (k : String) : Option JVal :=
  (kvs.find? (fun p => p.1 = k)).map (fun p => p.2)

/-- The state of the cursor file as the `json` library classifies it. -/
inductive CursorFile : Type where
  | absent : CursorFile
  | malformed : String → CursorFile
  | parsed : JVal → CursorFile

/-- A Python call outcome: a returned value, or an uncaught exception. -/
inductive PyOutcome (α : Type) : Type where
  | ok : α → PyOutcome α
  | exn : String → PyOutcome α

/-- Source: `Decisions.py` lines 46–53: `FileNotFoundError` and `JSONDecodeError` are
caught (returning `None`); `data.get('last_visited')` on a non-dict JSON
value raises `AttributeError`, which is not caught. -/
def get_last_visited : CursorFile → PyOutcome (Option JVal)
  | .absent => .ok none
  | .malformed _ => .ok none
  | .parsed (.jobj kvs) => .ok (jsonGet kvs "last_visited")
  | .parsed _ => .exn "AttributeError"

/-- Source: `Decisions.py` lines 55–60: `json.dump({'last_visited': href}, file)`.
The file afterwards parses back to exactly that one-key object (`json.dump`
and `json.load` are inverse on string values). -/
def save_last_visited (href : String) : CursorFile :=
  .parsed (.jobj [("last_visited", .jstr href)])

/-! ### `database.py::load_and_join_tiers`

A polygon geometry is modelled as a finite set of cells (a `List Int`);
two geometries intersect when they share a cell.  This is the decidable
stand-in for the external `shapely` intersection predicate that
`gpd.sjoin(..., predicate='intersects')` consults; every claim below holds
for the join structure independently of the concrete predicate.

A tier file row is a `Feature` (its `Service_Area_Zone_de_service` attribute
and its geometry); a row of a joined tier frame additionally carries the
parent area identifier (`None`/NaN when the left join found no match). -/

/-- A geometry, abstracted to the set of cells it covers. -/
abbrev Geom : Type := List Int

/-- The `'intersects'` predicate of the spatial join. -/
def geomIntersects (a b : Geom) : Bool :=
  a.any (fun x => b.contains x)

/-- One row of a freshly loaded tier file. -/
structure Feature : Type where
  serviceArea : String
  geom : Geom
deriving DecidableEq, Repr

/-- One row of a joined tier frame: the left row's columns plus the parent
tier's `Service_Area_Zone_de_service` (none when the left join matched
nothing, i.e. NaN in the frame). -/
structure JoinedRow : Type where
  serviceArea : String
  geom : Geom
  parent : Option String
deriving DecidableEq, Repr

/-- A tier layer as it sits in `tier_gdfs`: tier 1 is the raw frame; every
later present tier is a joined frame whose parent-identifier column was
renamed to `Tier{tier-1}_Service_Area_Zone_de_service` (the number stored
here is the loop's `tier - 1`, not the parent's actual tier). -/
inductive Layer : Type where
  | raw : List Feature → Layer
  | joined : Nat → List JoinedRow → Layer
deriving DecidableEq, Repr

/-- Source: `tier_gdfs[-1][['Service_Area_Zone_de_service', 'geometry']]`: the
two-column projection of the previous layer (row per row, duplicates kept). -/
def projectLayer : Layer → List (String × Geom)
  | .raw feats => feats.map (fun f => (f.serviceArea, f.geom))
  | .joined _ rows => rows.map (fun r => (r.serviceArea, r.geom))

/-- The joined rows produced for one left row `f`: one row per matching
right row, or the single null-parent row when nothing matches. -/
def sjoinRows (right : List (String × Geom)) (f : Feature) : List JoinedRow :=
  match right.filter (fun r => geomIntersects f.geom r.2) with
  | [] => [⟨f.serviceArea, f.geom, none⟩]
  | ms => ms.map (fun r => ⟨f.serviceArea, f.geom, some r.1⟩)

/-- Source: `gpd.sjoin(left, right, how="left", predicate='intersects')`: one output
row per (left row, matching right row) pair, in left-then-right order; a left
row with no match is kept once with a null parent identifier. -/
def sjoinLeft (left : List Feature) (right : List (String × Geom)) :
    List JoinedRow :=
  left.flatMap (sjoinRows right)

/-- The unpacked archive: for each tier number, the features of the matching
`Tier{t}_Niveau{t}_*.tab` file, or `none` when `glob` finds no file. -/
abbrev Archive : Type := Nat → Option (List Feature)

/-- The loop of `load_and_join_tiers` (lines 17–34): `ts` is the remaining
tier numbers, `acc` is `tier_gdfs`.  A missing file prints and continues; for
`tier > 1` the join reads `tier_gdfs[-1]`, which raises `IndexError` when the
list is still empty. -/
def loadTiersAux (archive : Archive) : List Nat → List Layer →
    Except String (List Layer)
  | [], acc => .ok acc
  | t :: rest, acc =>
      match archive t with
      | none => loadTiersAux archive rest acc
      | some feats =>
          if 1 < t then
            match acc.getLast? with
            | none => .error "list index out of range"
            | some prev =>
                loadTiersAux archive rest
                  (acc ++ [Layer.joined (t - 1) (sjoinLeft feats (projectLayer prev))])
          else loadTiersAux archive rest (acc ++ [Layer.raw feats])

/-- Source: `database.py` lines 9–35: iterate `tier` over `range(1, num_tiers + 1)`
starting from an empty `tier_gdfs`. -/
def load_and_join_tiers (archive : Archive) (numTiers : Nat) :
    Except String (List Layer) :=
  loadTiersAux archive (List.range' 1 numTiers) []

/-- The tiers among `ts` whose file is present, with their features. -/
def presentOf (archive : Archive) (ts : List Nat) : List (Nat × List Feature) :=
  ts.filterMap (fun t => (archive t).map (fun f => (t, f)))

/-- The present tiers of the archive, in tier order, with their features. -/
def presentTiers (archive : Archive) (numTiers : Nat) :
    List (Nat × List Feature) :=
  presentOf archive (List.range' 1 numTiers)

/-- Modelled from the spec: "for tier>1, performs a left spatial join against
the immediately preceding tier's layer" — chain each present tier after the
first against the layer built for the nearest preceding present tier. -/
def chainRest (prev : Layer) : List (Nat × List Feature) → List Layer
  | [] => []
  | (t, feats) :: rest =>
      let l := Layer.joined (t - 1) (sjoinLeft feats (projectLayer prev))
      l :: chainRest l rest

/-- Modelled from the spec: the expected sequence of layers for the present
tiers — the first present tier loaded raw, each later present tier
left-joined against the layer of the nearest preceding present tier. -/
def loadTiersSpec : List (Nat × List Feature) → List Layer
  | [] => []
  | (_, feats) :: rest => Layer.raw feats :: chainRest (Layer.raw feats) rest

/-! ### `database.py::table_exists` / `create_and_populate_tables`

The DuckDB database is modelled as an association list from table name to the
table's rows (each row the list of inserted strings, in column order).  The
`CREATE TABLE` schema text is not modelled beyond the table's existence; the
claims are about which tables exist and which rows they hold. -/

/-- A cell of a GeoDataFrame row: an attribute value (already textual in the
tier files) or the geometry object. -/
inductive Cell : Type where
  | attr : String → Cell
  | geomCell : Geom → Cell
deriving DecidableEq, Repr

/-- The external `shapely` well-known-text rendering of a geometry, modelled
as an injective textual rendering of the cell set. -/
def wktOfGeom (g : Geom) : String :=
  "WKT" ++ toString g

/-- Source: `str(row[col]) if col != 'geometry' else row['geometry'].wkt` for one
cell: attributes pass through `str`, the geometry cell renders as WKT (which
is also what `str` yields on a shapely geometry). -/
def cellToStr : Cell → String
  | .attr s => s
  | .geomCell g => wktOfGeom g

/-- One row converted for insertion (`database.py` line 53). -/
def rowData (row : List Cell) : List String :=
  row.map cellToStr

/-- The dataframe view of a layer that `create_and_populate_tables`
iterates over: column names plus rows of cells, aligned. -/
structure LoadLayer : Type where
  cols : List String
  rows : List (List Cell)
deriving DecidableEq, Repr

/-- The analytical store: table name to rows, in creation order. -/
abbrev Store : Type := List (String × List (List String))

/-- Source: `database.py` lines 37–41: the catalog query `COUNT(*) > 0`. -/
def table_exists : Store → String → Bool
  | [], _ => false
  | (m, _) :: rest, name => (m = name) || table_exists rest name

/-- The rows of a table, `none` when no such table exists. -/
def storeLookup : Store → String → Option (List (List String))
  | [], _ => none
  | (m, rows) :: rest, name =>
      if m = name then some rows else storeLookup rest name

/-- Source: `CREATE TABLE name (schema)`: a new empty table at the end of the
catalog. -/
def storeCreate (s : Store) (name : String) : Store :=
  s ++ [(name, [])]

/-- Source: `INSERT INTO name VALUES ...` for a batch of rows: append to the named
table (the caller just created it if it was missing). -/
def storeInsert (s : Store) (name : String) (rs : List (List String)) : Store :=
  match s with
  | [] => []
  | (m, existing) :: rest =>
      if m = name then (m, existing ++ rs) :: rest
      else (m, existing) :: storeInsert rest name rs

/-- The body of `create_and_populate_tables` (lines 44–57): `i` is the
`enumerate(tier_gdfs, start=1)` counter; create the table only when the
catalog has none of that name, then batch-insert every row of the frame. -/
def capAux (s : Store) (i : Nat) : List LoadLayer → Store
  | [] => s
  | g :: rest =>
      let name := "Tier" ++ toString i ++ "_Areas"
      let s1 := if table_exists s name then s else storeCreate s name
      let s2 := storeInsert s1 name (g.rows.map rowData)
      capAux s2 (i + 1) rest

/-- Source: `database.py` lines 43–57. -/
def create_and_populate_tables (s : Store) (tier_gdfs : List LoadLayer) : Store :=
  capAux s 1 tier_gdfs

/-- All rows the run starting at counter `i` inserts into table `n`, in
insertion order. -/
def targetDataAux (i : Nat) (n : String) : List LoadLayer → List (List String)
  | [] => []
  | g :: rest =>
      (if "Tier" ++ toString i ++ "_Areas" = n then g.rows.map rowData else [])
        ++ targetDataAux (i + 1) n rest

/-- The table names the run starting at counter `i` targets. -/
def targetNamesAux (i : Nat) : List LoadLayer → List String
  | [] => []
  | _ :: rest => ("Tier" ++ toString i ++ "_Areas") :: targetNamesAux (i + 1) rest

/-- The dataframe view of a `Layer` as `main` hands it from
`load_and_join_tiers` to `create_and_populate_tables`: a raw layer has the
area attribute and the geometry; a joined layer additionally has the renamed
parent column, whose NaN cells stringify to `"nan"`. -/
def layerToGdf : Layer → LoadLayer
  | .raw feats =>
      ⟨["Service_Area_Zone_de_service", "geometry"],
        feats.map (fun f => [.attr f.serviceArea, .geomCell f.geom])⟩
  | .joined t rows =>
      ⟨["Service_Area_Zone_de_service", "geometry",
        "Tier" ++ toString t ++ "_Service_Area_Zone_de_service"],
        rows.map (fun r =>
          [.attr r.serviceArea, .geomCell r.geom, .attr (r.parent.getD "nan")])⟩

/-! ### `Decisions.py::extract_data`

A record is a Python dict from header text to cell text, modelled as an
association list with unique keys in insertion order: assignment replaces the
value of the first matching key in place or appends a fresh key at the end;
`del` removes the key; lookup finds the first matching key. -/

/-- A record (Python dict of strings). -/
abbrev Dict : Type := List (String × String)

/-- Source: `d[k]` / `d.get(k)` as an `Option`: the value at the first matching
key. -/
def dictGet : Dict → String → Option String
  | [], _ => none
  | (a, b) :: tl, k => if a = k then some b else dictGet tl k

/-- Source: `d[k] = v`: replace in place, or append the new key. -/
def dictSet : Dict → String → String → Dict
  | [], k, v => [(k, v)]
  | (a, b) :: tl, k, v =>
      if a = k then (k, v) :: tl else (a, b) :: dictSet tl k v

/-- Source: `del d[k]`. -/
def dictDel : Dict → String → Dict
  | [], _ => []
  | (a, b) :: tl, k =>
      if a = k then dictDel tl k else (a, b) :: dictDel tl k

/-- Source: `.replace('\xa0', ' ')` applied to extracted text: every non-breaking
space character becomes a plain space. -/
def normNBSP (s : String) : String :=
  (s.data.map (fun c => if c = '\u00A0' then ' ' else c)).asString

/-- The row dict comprehension (line 122): `{headers[i]: text(col) for i, col
in enumerate(cols)}`; `headers[i]` raises `IndexError` when a row has more
cells than there are headers, so the result is `none` in that case. -/
def buildRowDict (headers : List String) (cells : List String) : Option Dict :=
  if cells.length ≤ headers.length then
    some ((headers.zip cells).foldl (fun d p => dictSet d p.1 p.2) [])
  else none

/-- One `if k in data: data[k] = format_frequency_range(data[k])` step
(lines 125–130). -/
def applyFreqField (d : Dict) (k : String) : Dict :=
  match dictGet d k with
  | some v => dictSet d k (format_frequency_range v)
  | none => d

/-- The three frequency-range rewrites, in source order. -/
def freqStage (d : Dict) : Dict :=
  applyFreqField
    (applyFreqField
      (applyFreqField d "Frequency range (MHz)")
      "Frequency range (MHz) of the primary licence")
    "Frequency range (MHz) of the subordinate licence"

/-- The three combined tier/geo field names (lines 133–137), in order. -/
def tier_fields : List String :=
  ["Tier number and geographic area of the licence",
   "Tier number and geographic area of the subordinate licence",
   "Tier number and geographic area of the primary licence"]

/-- Python `s.split(' ', 1)`: split at the first space only; a string with no
space yields the one-element list. -/
def splitOnceAux : List Char → Option (List Char × List Char)
  | [] => none
  | c :: cs =>
      if c = ' ' then some ([], cs)
      else (splitOnceAux cs).map (fun p => (c :: p.1, p.2))

/-- Python `s.split(' ', 1)`. -/
def splitFirstSpace (s : String) : List String :=
  match splitOnceAux s.data with
  | none => [s]
  | some (a, b) => [a.asString, b.asString]

/-- One iteration of the tier-field loop (lines 138–145): when the field is
present, split its value on the first space; only a two-part split writes the
`Tier number` / `Geographic area of the licence` fields; the combined field
is deleted in every present case. -/
def tierStep (d : Dict) (field : String) : Dict :=
  match dictGet d field with
  | none => d
  | some v =>
      let parts := splitFirstSpace v
      let d1 :=
        match parts with
        | [a, b] => dictSet (dictSet d "Tier number" a)
            "Geographic area of the licence" b
        | _ => d
      dictDel d1 field

/-- The whole tier-field loop. -/
def tierStage (d : Dict) : Dict :=
  tier_fields.foldl tierStep d

/-- Source: `data['Table Title'] = table_title` (line 148). -/
def addTitle (d : Dict) (title : String) : Dict :=
  dictSet d "Table Title" title

/-- One data row through the whole per-row pipeline of `extract_data`. -/
def processRow (headers : List String) (title : String) (cells : List String) :
    Option Dict :=
  (buildRowDict headers (cells.map normNBSP)).map
    (fun d => addTitle (tierStage (freqStage d)) title)

/-- The bordered table as BeautifulSoup hands it over: the caption text (when
a `bg-primary` caption exists) and, per `tr`, its `th` texts and `td` texts
(each already `get_text(strip=True)`, before the NBSP normalization). -/
structure HtmlTable : Type where
  caption : Option String
  trs : List (List String × List String)
deriving Repr

/-- Source: `Decisions.py` lines 106–152; the argument is `none` when the page has no
`table-bordered` table (or no soup), giving the empty list.  The overall
result is `none` when some row raises `IndexError` (more cells than
headers). -/
def extract_data : Option HtmlTable → Option (List Dict)
  | none => some []
  | some t =>
      match t.trs with
      | [] => some []
      | hrow :: body =>
          let title := t.caption.getD "Unknown Table Title"
          let headers := hrow.1.map normNBSP
          body.mapM (fun r => processRow headers title r.2)

/-! ### `testing.py::read_table_as_gdf`

A dataframe read from the store is a list of named columns of text cells;
after conversion the `Geometry` column holds parsed geometries.  The external
`wkt.loads` is a parameter returning `Except` (its `ShapelyError`); the
`try/except` of `convert_geometry` is the embedding's `match`. -/

/-- A cell of the exporter's frame: the text read from the store, or the
converted geometry column content. -/
inductive PCell : Type where
  | text : String → PCell
  | pgeom : Option Geom → PCell
deriving DecidableEq, Repr

/-- A dataframe: named columns of cells. -/
abbrev DFrame : Type := List (String × List PCell)

/-- Source: `testing.py` lines 19–23: `wkt.loads(row) if row else None`, with
`ShapelyError` caught and turned into `None`.  `parse` is the external
`shapely.wkt.loads`. -/
def convert_geometry (parse : String → Except String Geom) (cell : String) :
    Option Geom :=
  if cell = "" then none
  else
    match parse cell with
    | .ok g => some g
    | .error _ => none

/-- The conversion applied to one cell of the `Geometry` column (the cells
read from a VARCHAR column are all text). -/
def convCell (parse : String → Except String Geom) : PCell → PCell
  | .text s => .pgeom (convert_geometry parse s)
  | .pgeom g => .pgeom g

/-- Source: `testing.py` lines 13–30: when a `Geometry` column exists, map the
conversion over exactly that column; otherwise the frame is unchanged. -/
def read_table_as_gdf (parse : String → Except String Geom) (df : DFrame) :
    DFrame :=
  if df.any (fun c => c.1 = "Geometry") then
    df.map (fun c =>
      if c.1 = "Geometry" then (c.1, c.2.map (convCell parse)) else c)
  else df

/-! ## Claim theorems -/

/-- C1 (code bug): `format_frequency_range` handles the hyphen and slash
variants as specified, but on the concatenated input `"470-512480-500"` the
first regex alternative greedily matches `470-5124` before the four-group
alternative (which is unreachable) is ever tried, so the function returns
`"470-5124"` instead of the documented `"470-512 480-500"`. -/
theorem c1_format_frequency_range_eval :
    format_frequency_range "470-512" = "470-512" ∧
    format_frequency_range "470/ 512" = "470-512" ∧
    format_frequency_range "470-512480-500" = "470-5124" ∧
    ¬ format_frequency_range "470-512480-500" = "470-512 480-500" := by
  refine ⟨rfl, rfl, rfl, ?_⟩
  decide

/-- The listing of the C2 example: rows carrying links L5..L1 newest-first. -/
def listingRows : List (Option String) :=
  [some "http://site/5", some "http://site/4", some "http://site/3",
   some "http://site/2", some "http://site/1"]

/-- C2 counterexample: with rows [L5, L4, L3, L2, L1] and cursor L3 the
function returns [L4, L5] — the links *newer* than the cursor, oldest first —
not [L1, L2] as the claim states. -/
theorem c2_counterexample :
    extract_decision_links listingRows (some "http://site/3")
      = ["http://site/4", "http://site/5"] ∧
    ¬ extract_decision_links listingRows (some "http://site/3")
      = ["http://site/1", "http://site/2"] := by
  refine ⟨rfl, ?_⟩
  decide

/-- C2 (amended): scanning stops at the cursor, so the links collected are
the ones *before* the cursor in source order (the ones newer than it),
returned reversed; in the example the result is [L4, L5].  With no cursor,
all row links are returned in reversed source order. -/
theorem c2_extract_decision_links :
    (∀ rows : List (Option String),
      extract_decision_links rows none
        = (rows.filterMap (fun r => r.map mkFullHref)).reverse) ∧
    extract_decision_links listingRows (some "http://site/3")
      = ["http://site/4", "http://site/5"] := by
  constructor
  · intro rows
    unfold extract_decision_links
    congr 1
    induction rows with
    | nil => rfl
    | cons r rest ih =>
        cases r with
        | none => simpa [collectLinks] using ih
        | some href => simpa [collectLinks] using ih
  · rfl

/-- C9 (confirmed): saving a cursor URL and reading it back returns exactly
the stored URL. -/
theorem c9_cursor_roundtrip (u : String) :
    get_last_visited (save_last_visited u) = .ok (some (.jstr u)) := rfl

/-- C7 counterexample: a cursor file whose content is valid JSON but not an
object (here `null`) makes `get_last_visited` raise `AttributeError`
(`data.get` on a non-dict), which is not among the caught exceptions — it
does not return `None`. -/
theorem c7_counterexample :
    get_last_visited (.parsed .jnull) = .exn "AttributeError" ∧
    ¬ get_last_visited (.parsed .jnull) = .ok none := by
  refine ⟨rfl, ?_⟩
  intro h
  exact PyOutcome.noConfusion h

/-- C7 (amended): a missing file or content that fails to parse as JSON is
non-fatal and yields `None`; a well-formed object yields the stored value;
but content that parses to a non-object JSON value raises an uncaught
`AttributeError`. -/
theorem c7_get_last_visited :
    get_last_visited .absent = .ok none ∧
    (∀ raw, get_last_visited (.malformed raw) = .ok none) ∧
    (∀ kvs, get_last_visited (.parsed (.jobj kvs))
      = .ok (jsonGet kvs "last_visited")) ∧
    (∀ j : JVal, (∀ kvs, j ≠ .jobj kvs) →
      get_last_visited (.parsed j) = .exn "AttributeError") := by
  refine ⟨rfl, fun _ => rfl, fun _ => rfl, ?_⟩
  intro j hj
  cases j with
  | jobj kvs => exact absurd rfl (hj kvs)
  | jnull => rfl
  | jbool b => rfl
  | jnum n => rfl
  | jstr s => rfl
  | jarr xs => rfl

/-- C7 witness: a concrete well-formed object returns its stored URL, and a
concrete non-object (an empty JSON array) raises. -/
theorem c7_witness :
    get_last_visited (.parsed (.jobj [("last_visited", .jstr "http://a")]))
      = .ok (some (.jstr "http://a")) ∧
    get_last_visited (.parsed (.jarr [])) = .exn "AttributeError" :=
  ⟨c7_get_last_visited.2.2.1 [("last_visited", .jstr "http://a")],
   c7_get_last_visited.2.2.2 (.jarr []) (fun _ h => JVal.noConfusion h)⟩

/-- C5 (confirmed): the left spatial join performed for every tier `k > 1`
keeps every left-layer feature — some joined row carries it — and a feature
intersecting no parent feature is kept with a null parent identifier. -/
theorem c5_left_join_semantics (left : List Feature)
    (right : List (String × Geom)) (f : Feature) (hf : f ∈ left) :
    (∃ p, (⟨f.serviceArea, f.geom, p⟩ : JoinedRow) ∈ sjoinLeft left right) ∧
    ((∀ r ∈ right, geomIntersects f.geom r.2 = false) →
      (⟨f.serviceArea, f.geom, none⟩ : JoinedRow) ∈ sjoinLeft left right) := by
  constructor
  · cases hmatch : right.filter (fun r => geomIntersects f.geom r.2) with
    | nil =>
        refine ⟨none, List.mem_flatMap.mpr ⟨f, hf, ?_⟩⟩
        unfold sjoinRows
        rw [hmatch]
        exact List.mem_singleton.mpr rfl
    | cons m ms =>
        refine ⟨some m.1, List.mem_flatMap.mpr ⟨f, hf, ?_⟩⟩
        unfold sjoinRows
        rw [hmatch]
        exact List.mem_map_of_mem _ (List.mem_cons_self m ms)
  · intro hnone
    have hfil : right.filter (fun r => geomIntersects f.geom r.2) = [] := by
      refine List.filter_eq_nil_iff.mpr ?_
      intro r hr
      simp [hnone r hr]
    refine List.mem_flatMap.mpr ⟨f, hf, ?_⟩
    unfold sjoinRows
    rw [hfil]
    exact List.mem_singleton.mpr rfl

/-- C5 witness: a two-feature left layer against a one-feature parent layer;
the non-intersecting feature is kept with a null parent. -/
theorem c5_witness :
    (∃ p, (⟨"B", [5], p⟩ : JoinedRow)
      ∈ sjoinLeft [⟨"B", [5]⟩] [("A", [1, 2])]) ∧
    (⟨"B", [5], none⟩ : JoinedRow)
      ∈ sjoinLeft [⟨"B", [5]⟩] [("A", [1, 2])] := by
  have h := c5_left_join_semantics [⟨"B", [5]⟩] [("A", [1, 2])] ⟨"B", [5]⟩
    (by decide)
  exact ⟨h.1, h.2 (by decide)⟩

/-- C8 (confirmed): when the frame has a `Geometry` column, conversion
touches only that column (all other columns appear unchanged in the result),
each geometry cell becomes its parsed value with `none` substituted on parse
failure, and the export never aborts — the output frame has a column for
every input column. -/
theorem c8_geometry_export (parse : String → Except String Geom) (df : DFrame)
    (hg : df.any (fun c => c.1 = "Geometry") = true) :
    (∀ c ∈ df, c.1 ≠ "Geometry" → c ∈ read_table_as_gdf parse df) ∧
    (∀ cells, ("Geometry", cells) ∈ df →
      ("Geometry", cells.map (convCell parse)) ∈ read_table_as_gdf parse df) ∧
    (∀ s msg, parse s = .error msg → convert_geometry parse s = none) ∧
    (read_table_as_gdf parse df).map (fun c => c.1) = df.map (fun c => c.1) := by
  refine ⟨?_, ?_, ?_, ?_⟩
  · intro c hc hne
    unfold read_table_as_gdf
    rw [if_pos hg]
    have h := List.mem_map_of_mem
      (fun c : String × List PCell =>
        if c.1 = "Geometry" then (c.1, c.2.map (convCell parse)) else c) hc
    simpa [if_neg hne] using h
  · intro cells hc
    unfold read_table_as_gdf
    rw [if_pos hg]
    have h := List.mem_map_of_mem
      (fun c : String × List PCell =>
        if c.1 = "Geometry" then (c.1, c.2.map (convCell parse)) else c) hc
    simpa using h
  · intro s msg hp
    unfold convert_geometry
    by_cases hs : s = ""
    · rw [if_pos hs]
    · rw [if_neg hs, hp]
  · unfold read_table_as_gdf
    rw [if_pos hg, List.map_map]
    refine List.map_congr_left ?_
    intro c hc
    by_cases h : c.1 = "Geometry" <;> simp [h]

/-- A concrete stand-in for `shapely.wkt.loads`: fails on `"BAD"`. -/
def exParse : String → Except String Geom :=
  fun s => if s = "BAD" then .error "ShapelyError" else .ok [7]

/-- A concrete two-column frame whose geometry cell fails to parse. -/
def exFrame : DFrame :=
  [("A", [.text "x"]), ("Geometry", [.text "BAD"])]

/-- C8 witness: the attribute column survives unchanged, the failing
geometry cell becomes a null geometry, and the failure yields `none`. -/
theorem c8_witness :
    ("A", [PCell.text "x"]) ∈ read_table_as_gdf exParse exFrame ∧
    ("Geometry", [PCell.pgeom none]) ∈ read_table_as_gdf exParse exFrame ∧
    convert_geometry exParse "BAD" = none := by
  have h := c8_geometry_export exParse exFrame rfl
  refine ⟨h.1 ("A", [.text "x"]) (by decide) (by decide), ?_,
    h.2.2.1 "BAD" "ShapelyError" rfl⟩
  exact h.2.1 [.text "BAD"] (by decide)

/-! Dictionary lemmas for the record-transformation claims. -/

theorem dictGet_set_self (d : Dict) (k v : String) :
    dictGet (dictSet d k v) k = some v := by
  induction d with
  | nil => simp [dictSet, dictGet]
  | cons p tl ih =>
      obtain ⟨a, b⟩ := p
      by_cases h : a = k
      · simp [dictSet, dictGet, h]
      · simp [dictSet, dictGet, h, ih]

theorem dictGet_set_other (d : Dict) (k v k' : String) (h : k' ≠ k) :
    dictGet (dictSet d k v) k' = dictGet d k' := by
  induction d with
  | nil => simp [dictSet, dictGet, Ne.symm h]
  | cons p tl ih =>
      obtain ⟨a, b⟩ := p
      by_cases ha : a = k
      · subst ha
        simp [dictSet, dictGet, Ne.symm h]
      · by_cases hak : a = k' <;> simp [dictSet, dictGet, ha, hak, h, ih]

theorem dictGet_del_self (d : Dict) (k : String) :
    dictGet (dictDel d k) k = none := by
  induction d with
  | nil => simp [dictDel, dictGet]
  | cons p tl ih =>
      obtain ⟨a, b⟩ := p
      by_cases h : a = k
      · simp [dictDel, h, ih]
      · simp [dictDel, dictGet, h, ih]

theorem dictGet_del_other (d : Dict) (k k' : String) (h : k' ≠ k) :
    dictGet (dictDel d k) k' = dictGet d k' := by
  induction d with
  | nil => simp [dictDel]
  | cons p tl ih =>
      obtain ⟨a, b⟩ := p
      by_cases ha : a = k
      · subst ha
        simp [dictDel, dictGet, Ne.symm h, ih]
      · by_cases hak : a = k' <;> simp [dictDel, dictGet, ha, hak, h, ih]

/-- A frequency-range rewrite leaves every other key untouched. -/
theorem dictGet_applyFreqField (d : Dict) (k f : String) (h : f ≠ k) :
    dictGet (applyFreqField d k) f = dictGet d f := by
  unfold applyFreqField
  cases hv : dictGet d k with
  | none => rfl
  | some v => simp [dictGet_set_other _ _ _ _ h]

/-- The frequency stage leaves every non-frequency key untouched. -/
theorem dictGet_freqStage (d : Dict) (f : String)
    (h1 : f ≠ "Frequency range (MHz)")
    (h2 : f ≠ "Frequency range (MHz) of the primary licence")
    (h3 : f ≠ "Frequency range (MHz) of the subordinate licence") :
    dictGet (freqStage d) f = dictGet d f := by
  unfold freqStage
  rw [dictGet_applyFreqField _ _ _ h3, dictGet_applyFreqField _ _ _ h2,
    dictGet_applyFreqField _ _ _ h1]

/-- A tier-field step on a present field with a two-part split. -/
theorem tierStep_split (d : Dict) (g v a b : String)
    (hv : dictGet d g = some v) (hsplit : splitFirstSpace v = [a, b]) :
    tierStep d g
      = dictDel (dictSet (dictSet d "Tier number" a)
          "Geographic area of the licence" b) g := by
  simp only [tierStep, hv, hsplit]

/-- A tier-field step on an absent field is the identity. -/
theorem tierStep_absent (d : Dict) (g : String) (hv : dictGet d g = none) :
    tierStep d g = d := by
  unfold tierStep
  rw [hv]

/-- C6 (confirmed): when a row record carries exactly one of the three known
combined tier/geo field names and its value has a space, the record that
`extract_data` emits (every emitted record is
`addTitle (tierStage (freqStage row)) title`) holds the text before the
first space under `Tier number`, everything after it under
`Geographic area of the licence`, and no longer holds the combined field;
on `"Tier 3 Southern Ontario"` the split gives `"Tier"` / `"3 Southern
Ontario"`, as run through `extract_data` in the last conjunct. -/
theorem c6_tier_geo_split (d : Dict) (title f v a b : String)
    (hf : f ∈ tier_fields)
    (hv : dictGet d f = some v)
    (hothers : ∀ g ∈ tier_fields, g ≠ f → dictGet d g = none)
    (hsplit : splitFirstSpace v = [a, b]) :
    (dictGet (addTitle (tierStage (freqStage d)) title) "Tier number" = some a ∧
     dictGet (addTitle (tierStage (freqStage d)) title)
       "Geographic area of the licence" = some b ∧
     dictGet (addTitle (tierStage (freqStage d)) title) f = none) ∧
    extract_data (some ⟨some "Decision Table",
        [(["Tier number and geographic area of the licence"], []),
         ([], ["Tier 3 Southern Ontario"])]⟩)
      = some [[("Tier number", "Tier"),
               ("Geographic area of the licence", "3 Southern Ontario"),
               ("Table Title", "Decision Table")]] := by
  refine ⟨?_, rfl⟩
  have hf' : f = "Tier number and geographic area of the licence" ∨
      f = "Tier number and geographic area of the subordinate licence" ∨
      f = "Tier number and geographic area of the primary licence" := by
    simpa [tier_fields] using hf
  unfold addTitle
  rcases hf' with rfl | rfl | rfl
  · have hv0 : dictGet (freqStage d)
        "Tier number and geographic area of the licence" = some v := by
      rw [dictGet_freqStage d _ (by decide) (by decide) (by decide)]
      exact hv
    have h2 : dictGet (freqStage d)
        "Tier number and geographic area of the subordinate licence" = none := by
      rw [dictGet_freqStage d _ (by decide) (by decide) (by decide)]
      exact hothers _ (by simp [tier_fields]) (by decide)
    have h3 : dictGet (freqStage d)
        "Tier number and geographic area of the primary licence" = none := by
      rw [dictGet_freqStage d _ (by decide) (by decide) (by decide)]
      exact hothers _ (by simp [tier_fields]) (by decide)
    have hA2 : dictGet (dictDel (dictSet (dictSet (freqStage d)
        "Tier number" a) "Geographic area of the licence" b)
        "Tier number and geographic area of the licence")
        "Tier number and geographic area of the subordinate licence"
          = none := by
      rw [dictGet_del_other _ _ _ (by decide),
        dictGet_set_other _ _ _ _ (by decide),
        dictGet_set_other _ _ _ _ (by decide)]
      exact h2
    have hA3 : dictGet (dictDel (dictSet (dictSet (freqStage d)
        "Tier number" a) "Geographic area of the licence" b)
        "Tier number and geographic area of the licence")
        "Tier number and geographic area of the primary licence" = none := by
      rw [dictGet_del_other _ _ _ (by decide),
        dictGet_set_other _ _ _ _ (by decide),
        dictGet_set_other _ _ _ _ (by decide)]
      exact h3
    have hstage : tierStage (freqStage d)
        = dictDel (dictSet (dictSet (freqStage d) "Tier number" a)
            "Geographic area of the licence" b)
            "Tier number and geographic area of the licence" := by
      show tierStep (tierStep (tierStep (freqStage d) _) _) _ = _
      rw [tierStep_split (freqStage d) _ v a b hv0 hsplit,
        tierStep_absent _ _ hA2, tierStep_absent _ _ hA3]
    rw [hstage]
    refine ⟨?_, ?_, ?_⟩
    · rw [dictGet_set_other _ _ _ _ (by decide),
        dictGet_del_other _ _ _ (by decide),
        dictGet_set_other _ _ _ _ (by decide), dictGet_set_self]
    · rw [dictGet_set_other _ _ _ _ (by decide),
        dictGet_del_other _ _ _ (by decide), dictGet_set_self]
    · rw [dictGet_set_other _ _ _ _ (by decide), dictGet_del_self]
  · have hv0 : dictGet (freqStage d)
        "Tier number and geographic area of the subordinate licence"
          = some v := by
      rw [dictGet_freqStage d _ (by decide) (by decide) (by decide)]
      exact hv
    have h1 : dictGet (freqStage d)
        "Tier number and geographic area of the licence" = none := by
      rw [dictGet_freqStage d _ (by decide) (by decide) (by decide)]
      exact hothers _ (by simp [tier_fields]) (by decide)
    have h3 : dictGet (freqStage d)
        "Tier number and geographic area of the primary licence" = none := by
      rw [dictGet_freqStage d _ (by decide) (by decide) (by decide)]
      exact hothers _ (by simp [tier_fields]) (by decide)
    have hA3 : dictGet (dictDel (dictSet (dictSet (freqStage d)
        "Tier number" a) "Geographic area of the licence" b)
        "Tier number and geographic area of the subordinate licence")
        "Tier number and geographic area of the primary licence" = none := by
      rw [dictGet_del_other _ _ _ (by decide),
        dictGet_set_other _ _ _ _ (by decide),
        dictGet_set_other _ _ _ _ (by decide)]
      exact h3
    have hstage : tierStage (freqStage d)
        = dictDel (dictSet (dictSet (freqStage d) "Tier number" a)
            "Geographic area of the licence" b)
            "Tier number and geographic area of the subordinate licence" := by
      show tierStep (tierStep (tierStep (freqStage d) _) _) _ = _
      rw [tierStep_absent _ _ h1,
        tierStep_split (freqStage d) _ v a b hv0 hsplit,
        tierStep_absent _ _ hA3]
    rw [hstage]
    refine ⟨?_, ?_, ?_⟩
    · rw [dictGet_set_other _ _ _ _ (by decide),
        dictGet_del_other _ _ _ (by decide),
        dictGet_set_other _ _ _ _ (by decide), dictGet_set_self]
    · rw [dictGet_set_other _ _ _ _ (by decide),
        dictGet_del_other _ _ _ (by decide), dictGet_set_self]
    · rw [dictGet_set_other _ _ _ _ (by decide), dictGet_del_self]
  · have hv0 : dictGet (freqStage d)
        "Tier number and geographic area of the primary licence" = some v := by
      rw [dictGet_freqStage d _ (by decide) (by decide) (by decide)]
      exact hv
    have h1 : dictGet (freqStage d)
        "Tier number and geographic area of the licence" = none := by
      rw [dictGet_freqStage d _ (by decide) (by decide) (by decide)]
      exact hothers _ (by simp [tier_fields]) (by decide)
    have h2 : dictGet (freqStage d)
        "Tier number and geographic area of the subordinate licence" = none := by
      rw [dictGet_freqStage d _ (by decide) (by decide) (by decide)]
      exact hothers _ (by simp [tier_fields]) (by decide)
    have hstage : tierStage (freqStage d)
        = dictDel (dictSet (dictSet (freqStage d) "Tier number" a)
            "Geographic area of the licence" b)
            "Tier number and geographic area of the primary licence" := by
      show tierStep (tierStep (tierStep (freqStage d) _) _) _ = _
      rw [tierStep_absent _ _ h1, tierStep_absent _ _ h2]
      rw [tierStep_split (freqStage d) _ v a b hv0 hsplit]
    rw [hstage]
    refine ⟨?_, ?_, ?_⟩
    · rw [dictGet_set_other _ _ _ _ (by decide),
        dictGet_del_other _ _ _ (by decide),
        dictGet_set_other _ _ _ _ (by decide), dictGet_set_self]
    · rw [dictGet_set_other _ _ _ _ (by decide),
        dictGet_del_other _ _ _ (by decide), dictGet_set_self]
    · rw [dictGet_set_other _ _ _ _ (by decide), dictGet_del_self]

/-- C6 witness: the claim's own example run through the pipeline. -/
theorem c6_witness :
    dictGet (addTitle (tierStage (freqStage
        [("Tier number and geographic area of the licence",
          "Tier 3 Southern Ontario")])) "T") "Tier number" = some "Tier" ∧
    dictGet (addTitle (tierStage (freqStage
        [("Tier number and geographic area of the licence",
          "Tier 3 Southern Ontario")])) "T")
      "Geographic area of the licence" = some "3 Southern Ontario" ∧
    dictGet (addTitle (tierStage (freqStage
        [("Tier number and geographic area of the licence",
          "Tier 3 Southern Ontario")])) "T")
      "Tier number and geographic area of the licence" = none :=
  (c6_tier_geo_split
    [("Tier number and geographic area of the licence",
      "Tier 3 Southern Ontario")]
    "T" "Tier number and geographic area of the licence"
    "Tier 3 Southern Ontario" "Tier" "3 Southern Ontario"
    (by decide) (by decide) (by decide) (by decide)).1

/-! Store lemmas for the loader claims. -/

theorem table_exists_iff (s : Store) (n : String) :
    table_exists s n = true ↔ (storeLookup s n).isSome := by
  induction s with
  | nil => simp [table_exists, storeLookup]
  | cons p rest ih =>
      obtain ⟨m, rows⟩ := p
      by_cases h : m = n <;> simp [table_exists, storeLookup, h, ih]

theorem storeLookup_insert (s : Store) (n m : String)
    (rs : List (List String)) :
    storeLookup (storeInsert s n rs) m =
      if m = n then (storeLookup s n).map (fun old => old ++ rs)
      else storeLookup s m := by
  induction s with
  | nil => by_cases h : m = n <;> simp [storeInsert, storeLookup, h]
  | cons p rest ih =>
      obtain ⟨a, rows⟩ := p
      by_cases han : a = n
      · subst han
        by_cases hm : m = a
        · subst hm
          simp [storeInsert, storeLookup]
        · simp [storeInsert, storeLookup, hm, Ne.symm hm]
      · by_cases hm : a = m
        · subst hm
          simp [storeInsert, storeLookup, han, Ne.symm han]
        · simp [storeInsert, storeLookup, han, hm, ih]

theorem storeLookup_create (s : Store) (n m : String) :
    storeLookup (storeCreate s n) m =
      if storeLookup s m = none ∧ m = n then some []
      else storeLookup s m := by
  induction s with
  | nil =>
      by_cases h : m = n
      · simp [storeCreate, storeLookup, h]
      · simp [storeCreate, storeLookup, h, Ne.symm h]
  | cons p rest ih =>
      obtain ⟨a, rows⟩ := p
      by_cases ham : a = m
      · subst ham
        simp [storeCreate, storeLookup]
      · simpa [storeCreate, storeLookup, ham] using ih

/-- Content of a table already present before the run: the run appends
exactly its target rows for that name, never recreating or clearing it. -/
theorem capAux_lookup_some (gdfs : List LoadLayer) :
    ∀ (s : Store) (i : Nat) (n : String) (rs : List (List String)),
    storeLookup s n = some rs →
    storeLookup (capAux s i gdfs) n = some (rs ++ targetDataAux i n gdfs) := by
  induction gdfs with
  | nil =>
      intro s i n rs h
      simp [capAux, targetDataAux, h]
  | cons g rest ih =>
      intro s i n rs h
      simp only [capAux, targetDataAux]
      by_cases hn : ("Tier" ++ toString i ++ "_Areas") = n
      · have hex : table_exists s ("Tier" ++ toString i ++ "_Areas") = true := by
          rw [table_exists_iff, hn, h]
          rfl
        rw [if_pos hex]
        have h2 : storeLookup
            (storeInsert s ("Tier" ++ toString i ++ "_Areas")
              (g.rows.map rowData)) n
              = some (rs ++ g.rows.map rowData) := by
          rw [storeLookup_insert, if_pos hn.symm, hn, h]
          rfl
        rw [ih _ _ _ _ h2, if_pos hn, List.append_assoc]
      · rw [if_neg hn]
        by_cases hex : table_exists s ("Tier" ++ toString i ++ "_Areas") = true
        · rw [if_pos hex]
          have h2 : storeLookup
              (storeInsert s ("Tier" ++ toString i ++ "_Areas")
                (g.rows.map rowData)) n = some rs := by
            rw [storeLookup_insert, if_neg (fun hh => hn hh.symm)]
            exact h
          rw [ih _ _ _ _ h2]
          simp
        · rw [if_neg hex]
          have h2 : storeLookup
              (storeInsert (storeCreate s ("Tier" ++ toString i ++ "_Areas"))
                ("Tier" ++ toString i ++ "_Areas") (g.rows.map rowData)) n
                = some rs := by
            rw [storeLookup_insert, if_neg (fun hh => hn hh.symm),
              storeLookup_create, if_neg (fun hh => hn hh.2.symm)]
            exact h
          rw [ih _ _ _ _ h2]
          simp

/-- Content of a table absent before the run: it exists afterwards exactly
when the run targets its name, holding exactly the run's rows for it. -/
theorem capAux_lookup_none (gdfs : List LoadLayer) :
    ∀ (s : Store) (i : Nat) (n : String),
    storeLookup s n = none →
    storeLookup (capAux s i gdfs) n =
      if n ∈ targetNamesAux i gdfs then some (targetDataAux i n gdfs)
      else none := by
  induction gdfs with
  | nil =>
      intro s i n h
      simp [capAux, targetDataAux, targetNamesAux, h]
  | cons g rest ih =>
      intro s i n h
      simp only [capAux, targetDataAux, targetNamesAux]
      by_cases hn : ("Tier" ++ toString i ++ "_Areas") = n
      · have hex : ¬ table_exists s ("Tier" ++ toString i ++ "_Areas") = true := by
          rw [table_exists_iff, hn, h]
          simp
        rw [if_neg hex]
        have h2 : storeLookup
            (storeInsert (storeCreate s ("Tier" ++ toString i ++ "_Areas"))
              ("Tier" ++ toString i ++ "_Areas") (g.rows.map rowData)) n
              = some (g.rows.map rowData) := by
          rw [storeLookup_insert, if_pos hn.symm, storeLookup_create,
            if_pos ⟨by rw [hn]; exact h, rfl⟩]
          rfl
        rw [capAux_lookup_some rest _ _ _ _ h2, if_pos hn]
        simp [List.mem_cons, hn]
      · rw [if_neg hn]
        have hnotc : n ∈ ("Tier" ++ toString i ++ "_Areas")
            :: targetNamesAux (i + 1) rest → n ∈ targetNamesAux (i + 1) rest := by
          intro hx
          rcases List.mem_cons.mp hx with hx | hx
          · exact absurd hx.symm hn
          · exact hx
        by_cases hex : table_exists s ("Tier" ++ toString i ++ "_Areas") = true
        · rw [if_pos hex]
          have h2 : storeLookup
              (storeInsert s ("Tier" ++ toString i ++ "_Areas")
                (g.rows.map rowData)) n = none := by
            rw [storeLookup_insert, if_neg (fun hh => hn hh.symm)]
            exact h
          rw [ih _ _ _ h2]
          by_cases hm2 : n ∈ targetNamesAux (i + 1) rest
          · rw [if_pos hm2, if_pos (List.mem_cons_of_mem _ hm2)]
            simp
          · rw [if_neg hm2, if_neg (fun hx => hm2 (hnotc hx))]
        · rw [if_neg hex]
          have h2 : storeLookup
              (storeInsert (storeCreate s ("Tier" ++ toString i ++ "_Areas"))
                ("Tier" ++ toString i ++ "_Areas") (g.rows.map rowData)) n
                = none := by
            rw [storeLookup_insert, if_neg (fun hh => hn hh.symm),
              storeLookup_create, if_neg (fun hh => hn hh.2.symm)]
            exact h
          rw [ih _ _ _ h2]
          by_cases hm2 : n ∈ targetNamesAux (i + 1) rest
          · rw [if_pos hm2, if_pos (List.mem_cons_of_mem _ hm2)]
            simp
          · rw [if_neg hm2, if_neg (fun hx => hm2 (hnotc hx))]

/-- C4 (confirmed): loading creates a table only when none of that name
exists — a table present beforehand keeps all its rows and is only appended
to, and no table outside the run's targets ever appears — and running the
same load twice against a fresh store leaves every target table holding
every row exactly twice. -/
theorem c4_append_only_no_dedup :
    (∀ (s : Store) (gdfs : List LoadLayer) (n : String)
        (rs : List (List String)), storeLookup s n = some rs →
      storeLookup (create_and_populate_tables s gdfs) n
        = some (rs ++ targetDataAux 1 n gdfs)) ∧
    (∀ (s : Store) (gdfs : List LoadLayer) (n : String),
      storeLookup s n = none → n ∉ targetNamesAux 1 gdfs →
      storeLookup (create_and_populate_tables s gdfs) n = none) ∧
    (∀ (s : Store) (gdfs : List LoadLayer) (n : String),
      storeLookup s n = none → n ∈ targetNamesAux 1 gdfs →
      storeLookup (create_and_populate_tables
          (create_and_populate_tables s gdfs) gdfs) n
        = some (targetDataAux 1 n gdfs ++ targetDataAux 1 n gdfs)) := by
  refine ⟨?_, ?_, ?_⟩
  · intro s gdfs n rs h
    exact capAux_lookup_some gdfs s 1 n rs h
  · intro s gdfs n h hmem
    have h2 := capAux_lookup_none gdfs s 1 n h
    rw [if_neg hmem] at h2
    exact h2
  · intro s gdfs n h hmem
    have h1 := capAux_lookup_none gdfs s 1 n h
    rw [if_pos hmem] at h1
    exact capAux_lookup_some gdfs _ 1 n _ h1

/-- A one-row, one-layer load used to witness C4. -/
def wGdf : LoadLayer :=
  ⟨["Service_Area_Zone_de_service", "geometry"], [[.attr "A", .geomCell [1]]]⟩

/-- C4 witness: two runs over a fresh store leave `Tier1_Areas` holding the
single source row exactly twice. -/
theorem c4_witness :
    storeLookup (create_and_populate_tables
        (create_and_populate_tables [] [wGdf]) [wGdf]) "Tier1_Areas"
      = some (targetDataAux 1 "Tier1_Areas" [wGdf]
          ++ targetDataAux 1 "Tier1_Areas" [wGdf]) ∧
    storeLookup (create_and_populate_tables
        (create_and_populate_tables [] [wGdf]) [wGdf]) "Tier1_Areas"
      = some [["A", "WKT[1]"], ["A", "WKT[1]"]] := by
  have h := c4_append_only_no_dedup.2.2 [] [wGdf] "Tier1_Areas" rfl
    (by decide)
  exact ⟨h, h.trans (by decide)⟩

/-- The run starting at counter `j` targets the name built from `j + i` for
its `i`-th frame. -/
theorem targetNamesAux_mem (gdfs : List LoadLayer) :
    ∀ (i j : Nat) (g : LoadLayer), gdfs[i]? = some g →
    ("Tier" ++ toString (j + i) ++ "_Areas") ∈ targetNamesAux j gdfs := by
  induction gdfs with
  | nil =>
      intro i j g h
      simp at h
  | cons hd rest ih =>
      intro i j g h
      cases i with
      | zero => simp [targetNamesAux]
      | succ i' =>
          have h2 := ih i' (j + 1) g (by simpa using h)
          have hnat : (j + 1) + i' = j + (i' + 1) := by omega
          rw [hnat] at h2
          exact List.mem_cons_of_mem _ h2

/-- The rows of the `i`-th frame form a contiguous block of what the run
starting at counter `j` inserts into the `i`-th frame's table. -/
theorem targetDataAux_block (gdfs : List LoadLayer) :
    ∀ (i j : Nat) (g : LoadLayer), gdfs[i]? = some g →
    ∃ pre post, targetDataAux j ("Tier" ++ toString (j + i) ++ "_Areas") gdfs
      = pre ++ g.rows.map rowData ++ post := by
  induction gdfs with
  | nil =>
      intro i j g h
      simp at h
  | cons hd rest ih =>
      intro i j g h
      cases i with
      | zero =>
          have hg : hd = g := by simpa using h
          subst hg
          exact ⟨[], targetDataAux (j + 1)
            ("Tier" ++ toString (j + 0) ++ "_Areas") rest,
            by simp [targetDataAux]⟩
      | succ i' =>
          obtain ⟨pre, post, hp⟩ := ih i' (j + 1) g (by simpa using h)
          have hnat : (j + 1) + i' = j + (i' + 1) := by omega
          rw [hnat] at hp
          refine ⟨(if "Tier" ++ toString j ++ "_Areas"
              = "Tier" ++ toString (j + (i' + 1)) ++ "_Areas"
            then hd.rows.map rowData else []) ++ pre, post, ?_⟩
          simp [targetDataAux, hp, List.append_assoc]

/-- The archive of the C10 scenario: tier 1 and tier 3 present, tier 2
missing. -/
def gapArchive : Archive := fun t =>
  if t = 1 then some [⟨"A1", [1, 2]⟩]
  else if t = 3 then some [⟨"C1", [2, 9]⟩] else none

/-- The two layers the loader returns for `gapArchive` (note the parent
column of the second layer is named `Tier2_...` although its parent is the
tier-1 layer). -/
def gapLayers : List Layer :=
  [Layer.raw [⟨"A1", [1, 2]⟩], Layer.joined 2 [⟨"C1", [2, 9], some "A1"⟩]]

/-- C10 (confirmed): table names are assigned by position in the loaded
sequence — the `i`-th frame's rows always land in `Tier{i+1}_Areas` — so
with tier 2's file missing, the tier-3 rows land in `Tier2_Areas` and no
`Tier3_Areas` is created. -/
theorem c10_positional_table_names :
    (∀ (s : Store) (gdfs : List LoadLayer) (i : Nat) (g : LoadLayer),
      gdfs[i]? = some g →
      ∃ rows pre post,
        storeLookup (create_and_populate_tables s gdfs)
          ("Tier" ++ toString (i + 1) ++ "_Areas") = some rows ∧
        rows = pre ++ g.rows.map rowData ++ post) ∧
    load_and_join_tiers gapArchive 3 = .ok gapLayers ∧
    storeLookup (create_and_populate_tables [] (gapLayers.map layerToGdf))
      "Tier2_Areas" = some [["C1", "WKT[2, 9]", "A1"]] ∧
    storeLookup (create_and_populate_tables [] (gapLayers.map layerToGdf))
      "Tier3_Areas" = none := by
  refine ⟨?_, rfl, rfl, rfl⟩
  intro s gdfs i g hg
  have hmem := targetNamesAux_mem gdfs i 1 g hg
  have hblock := targetDataAux_block gdfs i 1 g hg
  rw [Nat.add_comm 1 i] at hmem hblock
  obtain ⟨pre, post, hp⟩ := hblock
  cases hs : storeLookup s ("Tier" ++ toString (i + 1) ++ "_Areas") with
  | some rs =>
      refine ⟨rs ++ targetDataAux 1
          ("Tier" ++ toString (i + 1) ++ "_Areas") gdfs, rs ++ pre, post,
        capAux_lookup_some gdfs s 1 _ rs hs, ?_⟩
      rw [hp]
      simp [List.append_assoc]
  | none =>
      refine ⟨targetDataAux 1 ("Tier" ++ toString (i + 1) ++ "_Areas") gdfs,
        pre, post, ?_, hp⟩
      have h2 := capAux_lookup_none gdfs s 1 _ hs
      rw [if_pos hmem] at h2
      exact h2

/-- A one-row, one-layer load used to witness C10. -/
def wGdf2 : LoadLayer :=
  ⟨["Service_Area_Zone_de_service", "geometry"], [[.attr "B", .geomCell [2]]]⟩

/-- C10 witness: the 0-th frame's rows land in `Tier1_Areas`. -/
theorem c10_witness :
    ∃ rows pre post,
      storeLookup (create_and_populate_tables [] [wGdf2])
        ("Tier" ++ toString (0 + 1) ++ "_Areas") = some rows ∧
      rows = pre ++ wGdf2.rows.map rowData ++ post :=
  c10_positional_table_names.1 [] [wGdf2] 0 wGdf2 rfl

/-! Loader-loop lemmas for C3. -/

/-- Tiers whose file is missing leave the loop state untouched. -/
theorem loadTiersAux_allNone (archive : Archive) :
    ∀ (ts : List Nat) (acc : List Layer),
    (∀ t ∈ ts, archive t = none) →
    loadTiersAux archive ts acc = .ok acc := by
  intro ts
  induction ts with
  | nil =>
      intro acc _
      rfl
  | cons t rest ih =>
      intro acc h
      have ht := h t (List.mem_cons_self t rest)
      simp only [loadTiersAux, ht]
      exact ih acc fun x hx => h x (List.mem_cons_of_mem _ hx)

/-- Once some layer has been collected, the remaining loop (over tier
numbers all greater than one) chains each present tier against the layer
built for the nearest preceding present tier. -/
theorem loadTiersAux_chain (archive : Archive) :
    ∀ (ts : List Nat) (acc : List Layer) (prev : Layer),
    (∀ t ∈ ts, 1 < t) → acc.getLast? = some prev →
    loadTiersAux archive ts acc
      = .ok (acc ++ chainRest prev (presentOf archive ts)) := by
  intro ts
  induction ts with
  | nil =>
      intro acc prev _ _
      simp [loadTiersAux, presentOf, chainRest]
  | cons t rest ih =>
      intro acc prev hgt hlast
      cases harch : archive t with
      | none =>
          simp only [loadTiersAux, harch]
          rw [ih acc prev (fun x hx => hgt x (List.mem_cons_of_mem _ hx)) hlast]
          simp [presentOf, harch]
      | some fs =>
          simp only [loadTiersAux, harch]
          rw [if_pos (hgt t (List.mem_cons_self t rest))]
          simp only [hlast]
          rw [ih (acc ++ [Layer.joined (t - 1) (sjoinLeft fs (projectLayer prev))])
            (Layer.joined (t - 1) (sjoinLeft fs (projectLayer prev)))
            (fun x hx => hgt x (List.mem_cons_of_mem _ hx))
            (List.getLast?_concat acc)]
          simp [presentOf, harch, chainRest, List.append_assoc]

/-- With nothing collected yet, the first present tier among tier numbers
all greater than one hits `tier_gdfs[-1]` on an empty list: `IndexError`. -/
theorem loadTiersAux_gap_error (archive : Archive) :
    ∀ (ts : List Nat),
    (∀ t ∈ ts, 1 < t) → (∃ t ∈ ts, (archive t).isSome) →
    loadTiersAux archive ts [] = .error "list index out of range" := by
  intro ts
  induction ts with
  | nil =>
      intro _ h
      obtain ⟨t, ht, _⟩ := h
      exact absurd ht (List.not_mem_nil t)
  | cons t rest ih =>
      intro hgt hex
      cases harch : archive t with
      | some fs =>
          simp only [loadTiersAux, harch]
          rw [if_pos (hgt t (List.mem_cons_self t rest))]
          rfl
      | none =>
          simp only [loadTiersAux, harch]
          refine ih (fun x hx => hgt x (List.mem_cons_of_mem _ hx)) ?_
          obtain ⟨x, hx, hxs⟩ := hex
          rcases List.mem_cons.mp hx with rfl | hx'
          · rw [harch] at hxs
            exact absurd hxs (by simp)
          · exact ⟨x, hx', hxs⟩

/-- C3 (corrected): the loader skips exactly the missing tiers and returns
one layer per present tier, each present tier `k > 1` left-joined against
the layer of the nearest preceding *present* tier — but only provided tier 1
is present whenever any tier is.  When the first present tier number is
greater than one, the loop reads `tier_gdfs[-1]` on an empty list and dies
with `IndexError` instead of returning layers. -/
theorem c3_missing_tiers (archive : Archive) (n : Nat) :
    (((∃ k ∈ List.range' 1 n, (archive k).isSome) → (archive 1).isSome) →
      load_and_join_tiers archive n
        = .ok (loadTiersSpec (presentTiers archive n))) ∧
    ((archive 1 = none ∧ ∃ k ∈ List.range' 1 n, (archive k).isSome) →
      load_and_join_tiers archive n = .error "list index out of range") := by
  constructor
  · intro himp
    cases n with
    | zero => rfl
    | succ m =>
        cases h1 : archive 1 with
        | none =>
            have hall : ∀ t ∈ List.range' 1 (m + 1), archive t = none := by
              intro t ht
              cases harch : archive t with
              | none => rfl
              | some fs =>
                  have hs : (archive 1).isSome :=
                    himp ⟨t, ht, by rw [harch]; rfl⟩
                  rw [h1] at hs
                  exact absurd hs (by simp)
            rw [load_and_join_tiers, loadTiersAux_allNone archive _ [] hall]
            have hp : presentTiers archive (m + 1) = [] := by
              unfold presentTiers presentOf
              refine List.filterMap_eq_nil_iff.mpr ?_
              intro t ht
              rw [hall t ht]
              rfl
            rw [hp]
            rfl
        | some fs =>
            rw [load_and_join_tiers, List.range'_succ]
            simp only [loadTiersAux, h1]
            rw [if_neg (by omega)]
            rw [loadTiersAux_chain archive _ ([] ++ [Layer.raw fs])
              (Layer.raw fs)
              (fun t ht => by
                have := List.mem_range'_1.mp ht
                omega)
              (List.getLast?_concat [])]
            have hp : presentTiers archive (m + 1)
                = (1, fs) :: presentOf archive (List.range' (1 + 1) m) := by
              unfold presentTiers
              rw [List.range'_succ]
              unfold presentOf
              rw [List.filterMap_cons]
              simp [h1]
            rw [hp]
            simp [loadTiersSpec]
  · rintro ⟨h1, k, hk, hks⟩
    cases n with
    | zero => simp at hk
    | succ m =>
        rw [load_and_join_tiers, List.range'_succ]
        simp only [loadTiersAux, h1]
        apply loadTiersAux_gap_error
        · intro t ht
          have := List.mem_range'_1.mp ht
          omega
        · have hk1 : k ≠ 1 := by
            intro hh
            rw [hh, h1] at hks
            exact absurd hks (by simp)
          have hb := List.mem_range'_1.mp hk
          exact ⟨k, List.mem_range'_1.mpr (by omega), hks⟩

/-- The C3 counterexample archive: tier 1 missing, tier 2 present. -/
def gapArch2 : Archive := fun t => if t = 2 then some [⟨"B", [1]⟩] else none

/-- C3 counterexample: with the tier-1 file missing and tier 2 present, the
loader raises `IndexError` (empty `tier_gdfs[-1]`) rather than returning a
layer for the present tier. -/
theorem c3_counterexample :
    load_and_join_tiers gapArch2 2 = .error "list index out of range" ∧
    ∀ L, ¬ load_and_join_tiers gapArch2 2 = .ok L := by
  refine ⟨rfl, ?_⟩
  intro L h
  rw [show load_and_join_tiers gapArch2 2
    = .error "list index out of range" from rfl] at h
  exact Except.noConfusion h

/-- The C3 witness archive: both tiers present. -/
def wArch : Archive := fun t =>
  if t = 1 then some [⟨"A", [1]⟩]
  else if t = 2 then some [⟨"B", [1, 5]⟩] else none

/-- C3 witness: with tier 1 present, the loader returns the chained layers
for the present tiers. -/
theorem c3_witness :
    load_and_join_tiers wArch 2 = .ok (loadTiersSpec (presentTiers wArch 2)) ∧
    load_and_join_tiers wArch 2
      = .ok [Layer.raw [⟨"A", [1]⟩],
             Layer.joined 1 [⟨"B", [1, 5], some "A"⟩]] := by
  have h := (c3_missing_tiers wArch 2).1 (fun _ => rfl)
  exact ⟨h, h.trans rfl⟩

end SpectrumDecisions
